import Mathlib

/-!
Verification development for the goircd IRC server.

The Go source is shallowly embedded: Go byte strings become `List Char`
(one `Char` per byte; all framing characters are ASCII), Go string-library
functions (`strings.SplitN`, `strings.TrimLeft`, `bytes.TrimRight`,
`strings.Join`, `strings.Index`, ...) are re-implemented below with the
same semantics, and each command handler of the daemon becomes a pure
function from its inputs to the messages it writes and the events it
forwards.  Socket writes are modelled as pairs `(destination client id,
wire bytes)`; channel sends to room processors as pairs `(room name,
event)` where the room name is an `Option` (`none` standing for the nil
channel obtained by indexing `room_sinks` with a nil room pointer).
-/

/-- Go byte strings, one `Char` per byte. -/
abbrev GoStr := List Char

/-- Shorthand turning a Lean string literal into a `GoStr`. -/
def str (s : String) : GoStr := s.data

/-- client.go: `CRLF = "\x0d\x0a"`. -/
def crlf : GoStr := str "\x0d\x0a"

/-- Bool test whether `sep` is an initial segment of `s` (used by the splitter). -/
def isPfx : GoStr → GoStr → Bool
  | [], _ => true
  | _ :: _, [] => false
  | a :: as, b :: bs => a == b && isPfx as bs

/-- Fueled worker for `splitSep`; the fuel is always the length of the
string being split, which makes the recursion structural (and hence
kernel-computable). -/
def splitSepF (sep : GoStr) : Nat → GoStr → List GoStr
  | 0, s => [s]
  | fuel + 1, s =>
    match s with
    | [] => [[]]
    | c :: rest =>
      if isPfx sep (c :: rest) then
        [] :: splitSepF sep fuel (List.drop (sep.length - 1) rest)
      else
        match splitSepF sep fuel rest with
        | [] => [[c]]
        | h :: t => (c :: h) :: t

/-- Go `strings.Split` / `bytes.Split`: split `s` on every non-overlapping
occurrence of the non-empty separator `sep`, scanning left to right. -/
def splitSep (sep s : GoStr) : List GoStr :=
  if sep.isEmpty then [s] else splitSepF sep s.length s

/-- Go `strings.SplitN` with `n > 0`: at most `n` pieces, the last piece
holding the unsplit remainder. -/
def splitN (sep s : GoStr) (n : Nat) : List GoStr :=
  let parts := splitSep sep s
  if parts.length ≤ n then parts
  else parts.take (n - 1) ++ [List.intercalate sep (parts.drop (n - 1))]

/-- Go `strings.TrimLeft(s, cutset)`: drop leading bytes belonging to `cutset`. -/
def trimLeftCutset (cutset : List Char) (s : GoStr) : GoStr :=
  s.dropWhile (fun c => cutset.contains c)

/-- Go `strings.TrimRight` / `bytes.TrimRight`: drop trailing bytes
belonging to `cutset`. -/
def trimRightCutset (cutset : List Char) (s : GoStr) : GoStr :=
  (s.reverse.dropWhile (fun c => cutset.contains c)).reverse

/-- Go `strings.Join(parts, " ")`. -/
def joinSpace (parts : List GoStr) : GoStr :=
  List.intercalate [' '] parts

/-- Go `strings.Index(s, " ")` generalised to a predicate: index of the
first byte satisfying `p`, or `none` when there is none (Go returns -1). -/
def goIndex (p : Char → Bool) : GoStr → Option Nat
  | [] => none
  | c :: rest => if p c then some 0 else (goIndex p rest).map (· + 1)

/-- ASCII lowercasing of one byte (Go `strings.ToLower`; all strings this
code lowercases are ASCII, nicknames being restricted to `[a-zA-Z0-9-]`). -/
def toLowerChar (c : Char) : Char :=
  if 'A'.toNat ≤ c.toNat ∧ c.toNat ≤ 'Z'.toNat then Char.ofNat (c.toNat + 32) else c

/-- ASCII lowercasing of a byte string. -/
def toLowerAscii (s : GoStr) : GoStr := s.map toLowerChar

/-- daemon.go: `RE_NICKNAME = "^[a-zA-Z0-9-]{1,9}$"` — the per-byte class. -/
def nickChar (c : Char) : Bool :=
  ('a'.toNat ≤ c.toNat && c.toNat ≤ 'z'.toNat) ||
  ('A'.toNat ≤ c.toNat && c.toNat ≤ 'Z'.toNat) ||
  ('0'.toNat ≤ c.toNat && c.toNat ≤ '9'.toNat) || c == '-'

/-- daemon.go: `RE_NICKNAME.MatchString`. -/
def nicknameValid (s : GoStr) : Bool :=
  decide (1 ≤ s.length) && decide (s.length ≤ 9) && s.all nickChar

/-- room.go: the byte class of `"^[^\x00\x07\x0a\x0d ,:/]{1,50}$"`. -/
def roomChar (c : Char) : Bool :=
  !([ '\x00', '\x07', '\x0a', '\x0d', ' ', ',', ':', '/' ].contains c)

/-- room.go: the regexp match inside `RoomNameSanitize`. -/
def roomNameRegexOk (s : GoStr) : Bool :=
  decide (1 ≤ s.length) && decide (s.length ≤ 50) && s.all roomChar

/-- room.go `RoomNameSanitize`: lowercase, strip leading `&#+!`, check the
character class, and re-prefix with `#`. -/
def RoomNameSanitize (name : GoStr) : GoStr × Bool :=
  let n := trimLeftCutset [ '&', '#', '+', '!' ] (toLowerAscii name)
  (str "#" ++ n, roomNameRegexOk n)

/-- Modelled from the spec: `RoomNameValid`, called by `Daemon.HandlerJoin`
(daemon.go line 219), is defined nowhere under src/.  Spec §4.4 step 1
describes JOIN's validation as "lowercasing, stripping any leading `&#+!`,
then matching `^[^\x00\x07\x0a\x0d ,:/]{1,50}$`", i.e. the validity flag of
`RoomNameSanitize`. -/
def RoomNameValid (name : GoStr) : Bool :=
  (RoomNameSanitize name).2

/-- client.go `Client.Msg`: send `text` as is with CRLF appended (the wire
bytes written to the destination socket). -/
def Msg (text : GoStr) : GoStr := text ++ crlf

/-- client.go `Client.Reply`: a server-originated line, `":<hostname> "`
followed by `text`, CRLF-terminated. -/
def Reply (hostname text : GoStr) : GoStr :=
  Msg (str ":" ++ hostname ++ str " " ++ text)

/-- Helper for `ReplyParts`: prefix the last part with `":"`. -/
def colonLast : List GoStr → List GoStr
  | [] => []
  | [x] => [str ":" ++ x]
  | x :: xs => x :: colonLast xs

/-- client.go `Client.ReplyParts`: join `code :: texts` with spaces, the
last part colon-prefixed, and send as a server reply. -/
def ReplyParts (hostname code : GoStr) (texts : List GoStr) : GoStr :=
  Reply hostname (joinSpace (colonLast (code :: texts)))

/-- client.go `Client.ReplyNicknamed`: like `ReplyParts` with the target
client's nickname spliced in right after the code. -/
def ReplyNicknamed (hostname nickname code : GoStr) (texts : List GoStr) : GoStr :=
  ReplyParts hostname code (nickname :: texts)

/-- client.go `Client`: the per-connection state.  `id` stands for the Go
pointer identity of the client (socket writes are addressed to it), and
`remoteAddr` for `conn.RemoteAddr().String()`.  The `hostname` field of the
Go struct always equals the daemon's hostname and is passed to the handler
functions explicitly. -/
structure Client where
  id : Nat
  registered : Bool := false
  ping_sent : Bool := false
  timestamp : Nat := 0
  nickname : GoStr := str "*"
  username : GoStr := []
  realname : GoStr := []
  remoteAddr : GoStr := []
deriving DecidableEq

/-- client.go `Client.String`: `nickname!username@remote-address`. -/
def clientString (c : Client) : GoStr :=
  c.nickname ++ str "!" ++ c.username ++ str "@" ++ c.remoteAddr

/-- room.go `Room` (the persistable part: name, topic, key). -/
structure Room where
  name : GoStr
  topic : GoStr := []
  key : GoStr := []
deriving DecidableEq

/-- events.go: the `EVENT_*` constants. -/
inductive EvType where
  | NEW | DEL | MSG | TOPIC | WHO | MODE
deriving DecidableEq

/-- events.go `ClientEvent`, seen from a room sink: its type and text
(the client field is the sender and is implicit in each handler). -/
structure Ev where
  etype : EvType
  text : GoStr
deriving DecidableEq

/-- Replace the client with id `c.id` by `c` (Go clients are shared
pointers: mutating a client is visible through `daemon.clients`). -/
def updateClient (clients : List Client) (c : Client) : List Client :=
  clients.map (fun x => if x.id == c.id then c else x)

/-- daemon.go `SendLusers` (line 64): the 251 reply, counting registered
clients. -/
def SendLusers (hostname : GoStr) (clients : List Client) (c : Client) : GoStr :=
  ReplyNicknamed hostname c.nickname (str "251")
    [str "There are " ++ (Nat.repr (clients.countP (fun x => x.registered))).data
      ++ str " users and 0 invisible on 1 servers"]

/-- daemon.go `SendMotd` (line 74).  `motd` is the contents of the MOTD
file (`none` when no path is configured or the file cannot be opened; the
chunked read loop yields the file's bytes for NUL-free files). -/
def SendMotd (hostname : GoStr) (motd : Option GoStr) (c : Client) : List GoStr :=
  match motd with
  | none => [ReplyNicknamed hostname c.nickname (str "422") [str "MOTD File is missing"]]
  | some content =>
    ReplyNicknamed hostname c.nickname (str "375")
        [str "- " ++ hostname ++ str " Message of the day -"]
      :: (splitSep (str "\x0a") (trimRightCutset ['\x0a'] content)).map
          (fun s => ReplyNicknamed hostname c.nickname (str "372") [str "- " ++ s])
      ++ [ReplyNicknamed hostname c.nickname (str "376") [str "End of /MOTD command"]]

/-- daemon.go `ClientRegister`, the registration check after the command
switch (lines 186-194): when the nickname has been set and the username is
non-empty, mark registered and send 001, 002, 003, 004, the LUSERS reply
and the MOTD block, in that order. -/
def regFinish (hostname : GoStr) (motd : Option GoStr) (clients : List Client)
    (c1 : Client) : Client × List (Nat × GoStr) :=
  if c1.nickname ≠ str "*" ∧ c1.username ≠ [] then
    let c2 : Client := { c1 with registered := true }
    (c2, [ (c2.id, ReplyNicknamed hostname c2.nickname (str "001") [str "Hi, welcome to IRC"])
         , (c2.id, ReplyNicknamed hostname c2.nickname (str "002")
              [str "Your host is " ++ hostname ++ str ", running goircd"])
         , (c2.id, ReplyNicknamed hostname c2.nickname (str "003")
              [str "This server was created sometime"])
         , (c2.id, ReplyNicknamed hostname c2.nickname (str "004")
              [hostname ++ str " goircd o o"])
         , (c2.id, SendLusers hostname (updateClient clients c2) c2) ]
         ++ (SendMotd hostname motd c2).map (fun l => (c2.id, l)))
  else (c1, [])

/-- daemon.go `ClientRegister` (lines 154-195).  `rest` is `cols[1]` of the
daemon's split of the inbound line (`none` when `len(cols) == 1`); the
result is the updated requesting client plus every socket write performed,
as `(destination client id, wire bytes)` pairs.  `clients` is
`daemon.clients` (it contains the requester). -/
def ClientRegister (hostname : GoStr) (motd : Option GoStr) (clients : List Client)
    (c : Client) (command : GoStr) (rest : Option GoStr) : Client × List (Nat × GoStr) :=
  let finish : Client → Client × List (Nat × GoStr) := regFinish hostname motd clients
  if command == str "NICK" then
    match rest with
    | none => (c, [(c.id, ReplyParts hostname (str "431") [str "No nickname given"])])
    | some nickname =>
      if nickname.length < 1 then
        (c, [(c.id, ReplyParts hostname (str "431") [str "No nickname given"])])
      else
        match clients.find? (fun x => x.nickname == nickname) with
        | some owner =>
          (c, [(owner.id, ReplyParts hostname (str "433")
                 [str "*", nickname, str "Nickname is already in use"])])
        | none =>
          if ¬ nicknameValid nickname then
            (c, [(c.id, ReplyParts hostname (str "432")
                   [str "*", nickname, str "Erroneous nickname"])])
          else
            finish { c with nickname := nickname }
  else if command == str "USER" then
    match rest with
    | none => (c, [(c.id, ReplyNicknamed hostname c.nickname (str "461")
                    [str "USER", str "Not enough parameters"])])
    | some rest1 =>
      let args := splitN (str " ") rest1 4
      if args.length < 4 then
        (c, [(c.id, ReplyNicknamed hostname c.nickname (str "461")
               [str "USER", str "Not enough parameters"])])
      else
        finish { c with username := args.getD 0 [], realname := trimLeftCutset [':'] (args.getD 3 []) }
  else
    finish c

/-- client.go `Client.Processor`, the body of one successful read
(lines 465-484): trim trailing NULs off the read chunk, append it to the
accumulator `buf`; if the buffer does not end in CRLF keep reading,
otherwise emit one MSG text per non-empty CRLF-separated segment of the
buffer minus its final CRLF and reset the buffer.  Returns the new
accumulator and the texts of the emitted `(client, EVENT_MSG, _)` events. -/
def clientProcessorStep (buf chunk : GoStr) : GoStr × List GoStr :=
  let bufNet := trimRightCutset ['\x00'] chunk
  let buf1 := buf ++ bufNet
  if crlf.isSuffixOf buf1 then
    ([], (splitSep crlf (buf1.take (buf1.length - 2))).filter (fun m => !m.isEmpty))
  else (buf1, [])

/-- daemon.go `Processor`, the `NOTICE`/`PRIVMSG` arm (lines 367-393).
`rest` is `cols[1]` of the first split (`none` when `len(cols) == 1`).
Returns the socket writes and the events sent to room sinks; a sink of
`none` is the nil channel obtained by `daemon.room_sinks[r]` with `r`
the nil room pointer of a failed map lookup. -/
def handlePrivmsg (hostname : GoStr) (clients : List Client) (rooms : List Room)
    (sender : Client) (command : GoStr) (rest : Option GoStr) :
    List (Nat × GoStr) × List (Option GoStr × Ev) :=
  match rest with
  | none =>
    ([(sender.id, ReplyNicknamed hostname sender.nickname (str "411")
        [str "No recipient given (" ++ command ++ str ")"])], [])
  | some rest1 =>
    let cols := splitN (str " ") rest1 2
    if cols.length == 1 then
      ([(sender.id, ReplyNicknamed hostname sender.nickname (str "412")
          [str "No text to send"])], [])
    else
      let target := toLowerAscii (cols.getD 0 [])
      let payload := cols.getD 1 []
      match clients.find? (fun c => c.nickname == target) with
      | some c =>
        ([(c.id, Msg (str ":" ++ clientString sender ++ str " " ++ command ++ str " "
            ++ c.nickname ++ str " :" ++ payload))], [])
      | none =>
        let ev : Ev := ⟨EvType.MSG, command ++ str " " ++ trimLeftCutset [':'] payload⟩
        match rooms.find? (fun r => r.name == target) with
        | none =>
          ([(sender.id, ReplyNicknamed hostname sender.nickname (str "401")
              [target, str "No such nick/channel"])], [(none, ev)])
        | some r => ([], [(some r.name, ev)])

/-- daemon.go `Processor`, the `MODE` arm after its not-enough-parameters
check (lines 324-343).  `rest` is `cols[1]` of the first split (non-empty
by the caller's check). -/
def handleMode (hostname : GoStr) (rooms : List Room) (c : Client) (rest : GoStr) :
    List (Nat × GoStr) × List (Option GoStr × Ev) :=
  let cols := splitN (str " ") rest 2
  if cols.getD 0 [] == c.username then
    if cols.length == 1 then
      ([(c.id, Msg (str "221 " ++ c.nickname ++ str " +"))], [])
    else
      ([(c.id, ReplyNicknamed hostname c.nickname (str "501") [str "Unknown MODE flag"])], [])
  else
    match rooms.find? (fun r => r.name == cols.getD 0 []) with
    | none =>
      ([(c.id, ReplyNicknamed hostname c.nickname (str "403")
          [cols.getD 0 [], str "No such channel"])], [])
    | some r =>
      if cols.length == 1 then ([], [(some r.name, ⟨EvType.MODE, []⟩)])
      else ([], [(some r.name, ⟨EvType.MODE, cols.getD 1 []⟩)])

/-- Result of `HandlerJoin`: the room directory afterwards, the socket
writes, the `(room name, event)` sink sends, and the
`(room, topic, key)` state-save events. -/
structure JoinResult where
  rooms : List Room
  sends : List (Nat × GoStr)
  forwards : List (GoStr × Ev)
  saves : List (GoStr × GoStr × GoStr)
deriving DecidableEq

/-- daemon.go `HandlerJoin`, the body of the per-room loop (lines 218-254)
for one `(room, key)` pair: validate the name, refuse a wrong key with 475,
forward `EVENT_NEW` to an existing room's sink, or register a new room
under the name as given (setting its key and saving state when a key was
supplied) and forward `EVENT_NEW` to it. -/
def handlerJoinOne (hostname : GoStr) (c : Client) (rooms : List Room)
    (room key : GoStr) : JoinResult :=
  if ¬ RoomNameValid room then
    ⟨rooms, [(c.id, ReplyNicknamed hostname c.nickname (str "403")
       [room, str "No such channel"])], [], []⟩
  else
    match rooms.find? (fun r => r.name == room) with
    | some rex =>
      if rex.key ≠ [] ∧ rex.key ≠ key then
        ⟨rooms, [(c.id, ReplyNicknamed hostname c.nickname (str "475")
           [room, str "Cannot join channel (+k) - bad key"])], [], []⟩
      else
        ⟨rooms, [], [(room, ⟨EvType.NEW, []⟩)], []⟩
    | none =>
      ⟨rooms ++ [⟨room, [], key⟩], [],
       [(room, ⟨EvType.NEW, []⟩)],
       if key ≠ [] then [(room, ([] : GoStr), key)] else []⟩

/-- daemon.go `HandlerJoin` (lines 209-255), the loop over the
comma-separated room list with its parallel key list. -/
def handlerJoinLoop (hostname : GoStr) (c : Client) (keys : List GoStr) :
    Nat → List GoStr → JoinResult → JoinResult
  | _, [], acc => acc
  | n, room :: restRooms, acc =>
    let key := if n < keys.length ∧ keys.getD n [] ≠ [] then keys.getD n [] else []
    let r1 := handlerJoinOne hostname c acc.rooms room key
    handlerJoinLoop hostname c keys (n + 1) restRooms
      ⟨r1.rooms, acc.sends ++ r1.sends, acc.forwards ++ r1.forwards, acc.saves ++ r1.saves⟩

/-- daemon.go `HandlerJoin` (lines 209-255): parse
`room-list[,room-list] [key-list[,key-list]]` and process each pair. -/
def HandlerJoin (hostname : GoStr) (c : Client) (rooms0 : List Room) (cmd : GoStr) :
    JoinResult :=
  let args := splitSep (str " ") cmd
  let names := splitSep (str ",") (args.getD 0 [])
  let keys := if 1 < args.length then splitSep (str ",") (args.getD 1 []) else []
  handlerJoinLoop hostname c keys 0 names ⟨rooms0, [], [], []⟩

/-- daemon.go: `PING_TIMEOUT = 180 s`. -/
def PING_TIMEOUT : Nat := 180

/-- daemon.go: `PING_THRESHOLD = 90 s`. -/
def PING_THRESHOLD : Nat := 90

/-- daemon.go: `ALIVENESS_CHECK = 10 s`. -/
def ALIVENESS_CHECK : Nat := 10

/-- Side effects of the liveness sweep on one client. -/
inductive SweepAct where
  | close (id : Nat)
  | ping (id : Nat) (line : GoStr)
deriving DecidableEq

/-- daemon.go `Processor`, the per-client body of the aliveness scan
(lines 263-278).  Time is in seconds; `timestamp.Add(d).Before(now)` is
`timestamp + d < now`. -/
def sweepClient (hostname : GoStr) (now : Nat) (c : Client) : Client × List SweepAct :=
  if c.timestamp + PING_TIMEOUT < now then
    (c, [SweepAct.close c.id])
  else if c.ping_sent = false ∧ c.timestamp + PING_THRESHOLD < now then
    if c.registered then
      ({ c with ping_sent := true }, [SweepAct.ping c.id (Msg (str "PING :" ++ hostname))])
    else
      (c, [SweepAct.close c.id])
  else (c, [])

/-- daemon.go `Processor`, the aliveness check at the top of each event
(lines 260-280): it runs only when more than `ALIVENESS_CHECK` seconds
passed since the previous sweep, sweeps every client, and resets
`last_aliveness_check` to `now`. -/
def alivenessCheck (hostname : GoStr) (now last : Nat) (clients : List Client) :
    List Client × Nat × List SweepAct :=
  if last + ALIVENESS_CHECK < now then
    (clients.map (fun c => (sweepClient hostname now c).1), now,
     (clients.map (fun c => (sweepClient hostname now c).2)).flatten)
  else (clients, last, [])

/-- events.go `StateKeeper` (line 106): the bytes written to
`<statedir>/<room-name>` for a state event, `<topic>\n<key>\n`. -/
def StateKeeperContent (topic key : GoStr) : GoStr :=
  topic ++ str "\x0a" ++ key ++ str "\x0a"

/-- goircd.go `Run`, the startup restore of one state file (lines 84-101):
read into a 1024-byte buffer (a regular file yields `min(1024, size)`
bytes, the rest of the buffer staying NUL), trim trailing NULs, split on
`\n`, take line one as topic and line two as key; the room is registered
under the file's base name.  `contents[1]` panics when there are fewer
than two lines, hence the `Option`. -/
def runRestoreRoom (fname content : GoStr) : Option Room :=
  let buf := content.take 1024 ++ List.replicate (1024 - (content.take 1024).length) '\x00'
  let contents := splitSep (str "\x0a") (trimRightCutset ['\x00'] buf)
  if 2 ≤ contents.length then
    some ⟨fname, contents.getD 0 [], contents.getD 1 []⟩
  else none

/-- room.go `Processor`, the split in the `EVENT_MSG` arm (lines 399-400):
`sep := strings.Index(event.text, " ")` then `event.text[:sep]` and
`event.text[sep+1:]`.  When the text holds no space Go's `Index` returns
-1 and the slice `event.text[:-1]` panics — that branch is `none`. -/
def roomMsgSplit (text : GoStr) : Option (GoStr × GoStr) :=
  match goIndex (fun c => c == ' ') text with
  | none => none
  | some sep => some (text.take sep, text.drop (sep + 1))

/-- Concrete client for the MODE self-query evaluation. -/
def cModeQ : Client :=
  { id := 0, registered := true, nickname := str "nick2", username := str "foo2",
    remoteAddr := str "someclient" }

/-- Concrete unregistered client mid-registration (nickname accepted,
username still unset), as in `TestRegistrationWorkflow`. -/
def cRegW : Client :=
  { id := 0, nickname := str "meinick", username := [] }

/-- Concrete registered sender `nick1`, as in `TestTwoUsers`. -/
def cSender : Client :=
  { id := 0, registered := true, nickname := str "nick1", username := str "foo1",
    remoteAddr := str "someclient" }

/-- Concrete registered client whose nickname carries an upper-case letter. -/
def cUpperNick : Client :=
  { id := 1, registered := true, nickname := str "Nick2", username := str "foo2",
    remoteAddr := str "someclient" }

/-- Concrete registered recipient `nick2`, as in `TestTwoUsers`. -/
def cRecipient : Client :=
  { id := 1, registered := true, nickname := str "nick2", username := str "foo2",
    remoteAddr := str "someclient" }

/-- Concrete client already owning nickname `nick1`. -/
def cOwner : Client :=
  { id := 1, registered := true, nickname := str "nick1", username := str "foo1",
    remoteAddr := str "someclient" }

/-- Concrete fresh, unregistered client (state right after `NewClient`). -/
def cFresh : Client := { id := 0 }

/-- Concrete client for the liveness sweep: idle past `PING_TIMEOUT`. -/
def cIdleLong : Client :=
  { id := 1, registered := true, timestamp := 0, nickname := str "nick1" }

/-- Concrete client for the liveness sweep: idle past `PING_THRESHOLD`
only, registered, with no ping outstanding. -/
def cIdleMid : Client :=
  { id := 2, registered := true, timestamp := 105, nickname := str "nick2" }

/-- Shape of a server reply: prefix `":<hostname> "`, then the text, then CRLF. -/
theorem reply_shape (hostname text : GoStr) :
    Reply hostname text = (str ":" ++ hostname ++ str " ") ++ (text ++ crlf) := by
  simp [Reply, Msg, str, List.append_assoc]

/-- C1 (corrected): every line built by `Reply` — hence by `ReplyParts` and
`ReplyNicknamed`, i.e. every numeric reply that goes through them, PONG and
the MOTD lines — begins with `":<hostname> "` and ends with CRLF, and every
line built by `Msg` ends with CRLF.  (The mode-query lines 221 and 324 are
written through `Msg` alone and carry no hostname prefix; see the
counterexample.) -/
theorem goircd_c1 (hostname text code nickname : GoStr) (texts : List GoStr) :
    (str ":" ++ hostname ++ str " ") <+: Reply hostname text ∧
    crlf <:+ Reply hostname text ∧
    (str ":" ++ hostname ++ str " ") <+: ReplyParts hostname code texts ∧
    crlf <:+ ReplyParts hostname code texts ∧
    (str ":" ++ hostname ++ str " ") <+: ReplyNicknamed hostname nickname code texts ∧
    crlf <:+ ReplyNicknamed hostname nickname code texts ∧
    crlf <:+ Msg text :=
  ⟨⟨text ++ crlf, (reply_shape hostname text).symm⟩,
   ⟨str ":" ++ hostname ++ str " " ++ text, rfl⟩,
   ⟨joinSpace (colonLast (code :: texts)) ++ crlf, (reply_shape hostname _).symm⟩,
   ⟨str ":" ++ hostname ++ str " " ++ joinSpace (colonLast (code :: texts)), rfl⟩,
   ⟨joinSpace (colonLast (code :: nickname :: texts)) ++ crlf, (reply_shape hostname _).symm⟩,
   ⟨str ":" ++ hostname ++ str " " ++ joinSpace (colonLast (code :: nickname :: texts)), rfl⟩,
   ⟨text, rfl⟩⟩

/-- C1, counterexample to the claim as stated: the self-MODE query reply
(daemon.go line 327, `client.Msg("221 " + client.nickname + " +")`) is a
server-originated line produced by a command handler that does not begin
with `":<hostname> "`. -/
theorem goircd_c1_cex :
    handleMode (str "foohost") [] cModeQ (str "foo2") =
      ([(0, str "221 nick2 +\x0d\x0a")], []) ∧
    ¬ (str ":" ++ str "foohost" ++ str " ") <+: str "221 nick2 +\x0d\x0a" := by
  constructor
  · decide
  · decide

/-- C3: one successful read never dispatches a partial line: the trimmed
chunk is appended to the accumulator; when the result does not end in CRLF
nothing is emitted and the buffer is kept, and when it does, exactly the
non-empty CRLF-separated segments of the buffer minus its final CRLF are
emitted and the buffer is reset to empty. -/
theorem goircd_c3 (buf chunk : GoStr) :
    (crlf.isSuffixOf (buf ++ trimRightCutset ['\x00'] chunk) = false →
      clientProcessorStep buf chunk = (buf ++ trimRightCutset ['\x00'] chunk, [])) ∧
    (crlf.isSuffixOf (buf ++ trimRightCutset ['\x00'] chunk) = true →
      clientProcessorStep buf chunk =
        ([], (splitSep crlf ((buf ++ trimRightCutset ['\x00'] chunk).take
            ((buf ++ trimRightCutset ['\x00'] chunk).length - 2))).filter
          (fun m => !m.isEmpty))) := by
  constructor
  · intro h
    simp [clientProcessorStep, h]
  · intro h
    simp [clientProcessorStep, h]

/-- C3, witness: a read of `"foo\r\n"` into an empty accumulator emits
exactly the message `"foo"` and resets the buffer. -/
theorem goircd_c3_witness :
    clientProcessorStep [] (str "foo\x0d\x0a") = ([], [str "foo"]) := by
  have h := (goircd_c3 [] (str "foo\x0d\x0a")).2 (by decide)
  exact h.trans (by decide)

/-- C5: evaluation of the NOTICE/PRIVMSG arm at a target that is neither a
nickname nor a room: the code replies 401 to the sender and then still
sends the MSG event to `room_sinks[r]` with `r` the nil pointer of the
failed lookup (the `none` sink) — the claim's "no event is forwarded" is
what the code was meant to do but does not. -/
theorem goircd_c5_eval :
    handlePrivmsg (str "foohost") [cSender] [] cSender (str "PRIVMSG")
      (some (str "nobody hi")) =
      ([(0, ReplyNicknamed (str "foohost") (str "nick1") (str "401")
          [str "nobody", str "No such nick/channel"])],
       [(none, ⟨EvType.MSG, str "PRIVMSG hi"⟩)]) := by
  decide

/-- C6: evaluation of the NICK-collision path: an unregistered client
(id 0, nickname `*`) asks for `nick1`, already owned by the client with
id 1; the 433 line is written to the socket of client 1 — the owner, not
the requester (the `client` loop variable in `ClientRegister` shadows the
requester) — and the requester's nickname stays `*`. -/
theorem goircd_c6_eval :
    ClientRegister (str "foohost") none [cOwner, cFresh] cFresh (str "NICK")
      (some (str "nick1")) =
      (cFresh, [(cOwner.id, ReplyParts (str "foohost") (str "433")
        [str "*", str "nick1", str "Nickname is already in use"])]) ∧
    cOwner.id ≠ cFresh.id := by
  constructor
  · decide
  · decide

/-- For an unregistered client (whose state invariant is `nickname = "*"`
or `username` empty), the registration condition is false. -/
theorem unreg_iff (c : Client) (hunreg : c.registered = false)
    (hinv : c.nickname = str "*" ∨ c.username = []) :
    (c.registered = true ↔ (c.nickname ≠ str "*" ∧ c.username ≠ [])) := by
  constructor
  · intro h
    rw [hunreg] at h
    exact absurd h (by simp)
  · intro hcond
    rcases hinv with h | h
    · exact absurd h hcond.1
    · exact absurd h hcond.2

/-- Behaviour of the registration check: the client comes out registered
exactly when the nickname/username condition holds, and in that case the
sends are the welcome block in order. -/
theorem regFinish_spec (hostname : GoStr) (motd : Option GoStr) (clients : List Client)
    (c1 : Client) (hreg : c1.registered = false) :
    ((regFinish hostname motd clients c1).1.registered = true ↔
      ((regFinish hostname motd clients c1).1.nickname ≠ str "*" ∧
       (regFinish hostname motd clients c1).1.username ≠ [])) ∧
    ((regFinish hostname motd clients c1).1.registered = true →
      (regFinish hostname motd clients c1).2 =
        [ ((regFinish hostname motd clients c1).1.id,
            ReplyNicknamed hostname (regFinish hostname motd clients c1).1.nickname
              (str "001") [str "Hi, welcome to IRC"])
        , ((regFinish hostname motd clients c1).1.id,
            ReplyNicknamed hostname (regFinish hostname motd clients c1).1.nickname
              (str "002") [str "Your host is " ++ hostname ++ str ", running goircd"])
        , ((regFinish hostname motd clients c1).1.id,
            ReplyNicknamed hostname (regFinish hostname motd clients c1).1.nickname
              (str "003") [str "This server was created sometime"])
        , ((regFinish hostname motd clients c1).1.id,
            ReplyNicknamed hostname (regFinish hostname motd clients c1).1.nickname
              (str "004") [hostname ++ str " goircd o o"])
        , ((regFinish hostname motd clients c1).1.id,
            SendLusers hostname (updateClient clients (regFinish hostname motd clients c1).1)
              (regFinish hostname motd clients c1).1) ]
        ++ (SendMotd hostname motd (regFinish hostname motd clients c1).1).map
            (fun l => ((regFinish hostname motd clients c1).1.id, l))) := by
  by_cases hcond : c1.nickname ≠ str "*" ∧ c1.username ≠ []
  · constructor
    · simp [regFinish, hcond]
    · intro _
      simp [regFinish, hcond]
  · constructor
    · simp [regFinish, hcond, hreg]
    · intro h
      simp [regFinish, hcond, hreg] at h

/-- C2: after the daemon processes a NICK or USER command for an
unregistered client, the client comes out registered exactly when its
nickname differs from `*` and its username is non-empty, and in that case
it is sent, in this order: 001 "Hi, welcome to IRC", 002, 003, 004, the
LUSERS 251 reply, then the MOTD block. -/
theorem goircd_c2 (hostname : GoStr) (motd : Option GoStr) (clients : List Client)
    (c : Client) (command : GoStr) (rest : Option GoStr)
    (r : Client × List (Nat × GoStr))
    (hr : r = ClientRegister hostname motd clients c command rest)
    (hunreg : c.registered = false)
    (hinv : c.nickname = str "*" ∨ c.username = [])
    (hcmd : command = str "NICK" ∨ command = str "USER") :
    (r.1.registered = true ↔ (r.1.nickname ≠ str "*" ∧ r.1.username ≠ [])) ∧
    (r.1.registered = true →
      r.2 =
        [ (r.1.id, ReplyNicknamed hostname r.1.nickname (str "001")
            [str "Hi, welcome to IRC"])
        , (r.1.id, ReplyNicknamed hostname r.1.nickname (str "002")
            [str "Your host is " ++ hostname ++ str ", running goircd"])
        , (r.1.id, ReplyNicknamed hostname r.1.nickname (str "003")
            [str "This server was created sometime"])
        , (r.1.id, ReplyNicknamed hostname r.1.nickname (str "004")
            [hostname ++ str " goircd o o"])
        , (r.1.id, SendLusers hostname (updateClient clients r.1) r.1) ]
        ++ (SendMotd hostname motd r.1).map (fun l => (r.1.id, l))) := by
  subst hr
  rcases hcmd with rfl | rfl
  · -- NICK
    rcases rest with _ | nickname
    · rw [show ClientRegister hostname motd clients c (str "NICK") none =
          (c, [(c.id, ReplyParts hostname (str "431") [str "No nickname given"])]) from by
        simp [ClientRegister]]
      exact ⟨unreg_iff c hunreg hinv, fun h => absurd h (by simp [hunreg])⟩
    · by_cases h1 : nickname.length < 1
      · rw [show ClientRegister hostname motd clients c (str "NICK") (some nickname) =
            (c, [(c.id, ReplyParts hostname (str "431") [str "No nickname given"])]) from by
          simp [ClientRegister, h1]]
        exact ⟨unreg_iff c hunreg hinv, fun h => absurd h (by simp [hunreg])⟩
      · rcases hfind : clients.find? (fun x => x.nickname == nickname) with _ | owner
        · by_cases hv : nicknameValid nickname
          · rw [show ClientRegister hostname motd clients c (str "NICK") (some nickname) =
                regFinish hostname motd clients { c with nickname := nickname } from by
              simp [ClientRegister, h1, hfind, hv]]
            exact regFinish_spec hostname motd clients _ (by simp [hunreg])
          · rw [show ClientRegister hostname motd clients c (str "NICK") (some nickname) =
                (c, [(c.id, ReplyParts hostname (str "432")
                  [str "*", nickname, str "Erroneous nickname"])]) from by
              simp [ClientRegister, h1, hfind, hv]]
            exact ⟨unreg_iff c hunreg hinv, fun h => absurd h (by simp [hunreg])⟩
        · rw [show ClientRegister hostname motd clients c (str "NICK") (some nickname) =
              (c, [(owner.id, ReplyParts hostname (str "433")
                [str "*", nickname, str "Nickname is already in use"])]) from by
            simp [ClientRegister, h1, hfind]]
          exact ⟨unreg_iff c hunreg hinv, fun h => absurd h (by simp [hunreg])⟩
  · -- USER
    rcases rest with _ | rest1
    · rw [show ClientRegister hostname motd clients c (str "USER") none =
          (c, [(c.id, ReplyNicknamed hostname c.nickname (str "461")
            [str "USER", str "Not enough parameters"])]) from by
        simp [ClientRegister, show ((str "USER" == str "NICK")) = false from by decide]]
      exact ⟨unreg_iff c hunreg hinv, fun h => absurd h (by simp [hunreg])⟩
    · by_cases hargs : (splitN (str " ") rest1 4).length < 4
      · rw [show ClientRegister hostname motd clients c (str "USER") (some rest1) =
            (c, [(c.id, ReplyNicknamed hostname c.nickname (str "461")
              [str "USER", str "Not enough parameters"])]) from by
          simp [ClientRegister, hargs,
            show ((str "USER" == str "NICK")) = false from by decide]]
        exact ⟨unreg_iff c hunreg hinv, fun h => absurd h (by simp [hunreg])⟩
      · rw [show ClientRegister hostname motd clients c (str "USER") (some rest1) =
            regFinish hostname motd clients
              { c with username := (splitN (str " ") rest1 4).getD 0 [],
                       realname := trimLeftCutset [':'] ((splitN (str " ") rest1 4).getD 3 []) } from by
          simp [ClientRegister, hargs,
            show ((str "USER" == str "NICK")) = false from by decide]]
        exact regFinish_spec hostname motd clients _ (by simp [hunreg])

/-- C2, witness: the client of `TestRegistrationWorkflow` (nickname already
`meinick`, no username) sends `USER 1 2 3 :4 5` and comes out registered. -/
theorem goircd_c2_witness :
    (ClientRegister (str "foohost") none [cRegW] cRegW (str "USER")
      (some (str "1 2 3 :4 5"))).1.registered = true :=
  (goircd_c2 (str "foohost") none [cRegW] cRegW (str "USER") (some (str "1 2 3 :4 5"))
    _ rfl rfl (Or.inr rfl) (Or.inr rfl)).1.mpr (by decide)

/-- Auxiliary: `find?` returns the unique element satisfying the test. -/
theorem find_first {α : Type} {p : α → Bool} {l : List α} {a : α}
    (ha : a ∈ l) (hpa : p a = true) (huniq : ∀ b ∈ l, p b = true → b = a) :
    l.find? p = some a := by
  induction l with
  | nil => cases ha
  | cons x xs ih =>
    by_cases hx : p x = true
    · have hxa : x = a := huniq x (List.mem_cons_self x xs) hx
      subst hxa
      exact List.find?_cons_of_pos xs hx
    · rcases List.mem_cons.mp ha with rfl | hmem
      · exact absurd hpa hx
      · rw [List.find?_cons_of_neg xs hx]
        exact ih hmem (fun b hb hpb => huniq b (List.mem_cons_of_mem x hb) hpb)

/-- C4 (corrected): a PRIVMSG/NOTICE target is matched by lowercasing the
target only and comparing it byte-for-byte against stored nicknames; when
some connected client's nickname equals the lowercased target, the server
delivers to it (and only it) the single line
`:<sender-nick>!<sender-user>@<sender-remote-addr> <command> <recipient-nick> :<rest>`
with the rest of the message kept verbatim, and forwards nothing to any
room sink. -/
theorem goircd_c4 (hostname : GoStr) (clients : List Client) (rooms : List Room)
    (sender recipient : Client) (command rest target payload : GoStr)
    (hparse : splitN (str " ") rest 2 = [target, payload])
    (hmem : recipient ∈ clients)
    (hnick : recipient.nickname = toLowerAscii target)
    (huniq : ∀ x ∈ clients, x.nickname = toLowerAscii target → x = recipient) :
    handlePrivmsg hostname clients rooms sender command (some rest) =
      ([(recipient.id, Msg (str ":" ++ clientString sender ++ str " " ++ command ++ str " "
          ++ recipient.nickname ++ str " :" ++ payload))], []) := by
  have hfind : clients.find? (fun x => x.nickname == toLowerAscii target) = some recipient :=
    find_first hmem (by simp [hnick]) (fun b hb hpb => huniq b hb (by simpa using hpb))
  simp [handlePrivmsg, hparse, hfind]

/-- C4, counterexample to the case-insensitive reading: the connected
client `Nick2` (upper-case N) is the intended recipient of
`PRIVMSG Nick2 Hello`, yet the code lowercases only the target and finds
no client named `nick2`, so nothing is delivered to client 1 — the sender
gets 401 and the event goes to the nil room sink instead. -/
theorem goircd_c4_cex :
    handlePrivmsg (str "foohost") [cSender, cUpperNick] [] cSender (str "PRIVMSG")
      (some (str "Nick2 Hello")) =
      ([(0, ReplyNicknamed (str "foohost") (str "nick1") (str "401")
          [str "nick2", str "No such nick/channel"])],
       [(none, ⟨EvType.MSG, str "PRIVMSG Hello"⟩)]) := by
  decide

/-- C4, witness: `nick1` sends `PRIVMSG nick2 Hello` and `nick2` receives
`:nick1!foo1@someclient PRIVMSG nick2 :Hello` (rest verbatim, colon
inserted by the formatter). -/
theorem goircd_c4_witness :
    handlePrivmsg (str "foohost") [cSender, cRecipient] [] cSender (str "PRIVMSG")
      (some (str "nick2 Hello")) =
      ([(cRecipient.id, Msg (str ":" ++ clientString cSender ++ str " " ++ str "PRIVMSG"
          ++ str " " ++ cRecipient.nickname ++ str " :" ++ str "Hello"))], []) :=
  goircd_c4 (str "foohost") [cSender, cRecipient] [] cSender cRecipient
    (str "PRIVMSG") (str "nick2 Hello") (str "nick2") (str "Hello")
    (by decide) (by decide) (by decide) (by decide)

/-- C7 (corrected): for each room name given to JOIN, validation is the
sanitize procedure's check (lowercase, strip leading `&#+!`, match the
character class); on failure the server replies `403 <room> :No such
channel` and neither creates nor joins anything, and on success the room
looked up or created carries the argument *as given* — not the
`#`-prefixed sanitized name. -/
theorem goircd_c7 (hostname : GoStr) (c : Client) (rooms : List Room) (room key : GoStr) :
    (RoomNameValid room = false →
      handlerJoinOne hostname c rooms room key =
        ⟨rooms, [(c.id, ReplyNicknamed hostname c.nickname (str "403")
           [room, str "No such channel"])], [], []⟩) ∧
    (RoomNameValid room = true →
      (∀ f ∈ (handlerJoinOne hostname c rooms room key).forwards, f.1 = room) ∧
      (∀ rm ∈ (handlerJoinOne hostname c rooms room key).rooms,
        rm ∈ rooms ∨ rm.name = room)) := by
  constructor
  · intro h
    simp [handlerJoinOne, h]
  · intro h
    rcases hfind : rooms.find? (fun r => r.name == room) with _ | rex
    · constructor
      · intro f hf
        simp [handlerJoinOne, h, hfind] at hf
        simp [hf]
      · intro rm hrm
        simp [handlerJoinOne, h, hfind] at hrm
        rcases hrm with hrm | hrm
        · exact Or.inl hrm
        · right
          rw [hrm]
    · by_cases hkey : rex.key ≠ [] ∧ rex.key ≠ key
      · constructor
        · intro f hf
          simp [handlerJoinOne, h, hfind, hkey] at hf
        · intro rm hrm
          simp [handlerJoinOne, h, hfind, hkey] at hrm
          exact Or.inl hrm
      · constructor
        · intro f hf
          simp [handlerJoinOne, h, hfind, hkey] at hf
          simp [hf]
        · intro rm hrm
          simp [handlerJoinOne, h, hfind, hkey] at hrm
          exact Or.inl hrm

/-- C7, counterexample to "JOIN `foo` joins room `#foo`": `foo` sanitizes
to the valid `#foo`, yet `HandlerJoin` registers and joins the room under
the literal name `foo`. -/
theorem goircd_c7_cex :
    RoomNameSanitize (str "foo") = (str "#foo", true) ∧
    (HandlerJoin (str "foohost") cSender [] (str "foo")).rooms =
      [⟨str "foo", [], []⟩] ∧
    (HandlerJoin (str "foohost") cSender [] (str "foo")).forwards =
      [(str "foo", ⟨EvType.NEW, []⟩)] ∧
    (str "foo" : GoStr) ≠ str "#foo" := by
  refine ⟨by decide, by decide, by decide, by decide⟩

/-- C7, witness: `JOIN bla/bla/bla` fails validation, earns a 403 and
leaves the (empty) room directory untouched. -/
theorem goircd_c7_witness :
    handlerJoinOne (str "foohost") cSender [] (str "bla/bla/bla") [] =
      ⟨[], [(cSender.id, ReplyNicknamed (str "foohost") cSender.nickname (str "403")
         [str "bla/bla/bla", str "No such channel"])], [], []⟩ :=
  (goircd_c7 (str "foohost") cSender [] (str "bla/bla/bla") []).1 (by decide)

/-- Inversion for the sweep: the only PING a client's sweep can emit is
its own, and only while `ping_sent` is false. -/
theorem sweep_ping_inv (hostname : GoStr) (now : Nat) (c : Client) (i : Nat) (l : GoStr)
    (h : SweepAct.ping i l ∈ (sweepClient hostname now c).2) :
    i = c.id ∧ c.ping_sent = false := by
  unfold sweepClient at h
  by_cases h1 : c.timestamp + PING_TIMEOUT < now
  · simp [h1] at h
  · by_cases h2 : c.ping_sent = false ∧ c.timestamp + PING_THRESHOLD < now
    · by_cases h3 : c.registered
      · simp [h1, h2, h3] at h
        exact ⟨h.1, h2.1⟩
      · simp [h1, h2, h3] at h
    · simp [h1, h2] at h

/-- C8: the liveness sweep runs only when more than `ALIVENESS_CHECK`
seconds passed since the last sweep (otherwise nothing happens); when it
runs it stamps the sweep time, closes every client idle for more than
`PING_TIMEOUT`, and for every other client with no outstanding ping that
has been idle for more than `PING_THRESHOLD` it sends `PING :<hostname>`
and sets `ping_sent` when the client is registered, and closes the socket
when it is not; no client with `ping_sent` already true is ever sent a
liveness PING. -/
theorem goircd_c8 (hostname : GoStr) (now last : Nat) (clients : List Client)
    (hids : ∀ c1 ∈ clients, ∀ c2 ∈ clients, c1.id = c2.id → c1 = c2) :
    (¬ last + ALIVENESS_CHECK < now →
      alivenessCheck hostname now last clients = (clients, last, [])) ∧
    (last + ALIVENESS_CHECK < now →
      (alivenessCheck hostname now last clients).2.1 = now ∧
      ∀ c ∈ clients,
        (c.timestamp + PING_TIMEOUT < now →
          SweepAct.close c.id ∈ (alivenessCheck hostname now last clients).2.2) ∧
        (¬ c.timestamp + PING_TIMEOUT < now → c.ping_sent = false →
         c.timestamp + PING_THRESHOLD < now →
          (c.registered = true →
            SweepAct.ping c.id (Msg (str "PING :" ++ hostname))
                ∈ (alivenessCheck hostname now last clients).2.2 ∧
              { c with ping_sent := true } ∈ (alivenessCheck hostname now last clients).1) ∧
          (c.registered = false →
            SweepAct.close c.id ∈ (alivenessCheck hostname now last clients).2.2))) ∧
    (∀ c ∈ clients, c.ping_sent = true →
      ∀ l, SweepAct.ping c.id l ∉ (alivenessCheck hostname now last clients).2.2) := by
  refine ⟨fun hgate => by simp [alivenessCheck, hgate], fun hgate => ?_, ?_⟩
  · constructor
    · simp [alivenessCheck, hgate]
    · intro c hc
      have hacts : (alivenessCheck hostname now last clients).2.2 =
          (clients.map (fun x => (sweepClient hostname now x).2)).flatten := by
        simp [alivenessCheck, hgate]
      have hmem : ∀ a, a ∈ (sweepClient hostname now c).2 →
          a ∈ (alivenessCheck hostname now last clients).2.2 := by
        intro a ha
        rw [hacts]
        exact List.mem_flatten.mpr ⟨(sweepClient hostname now c).2,
          List.mem_map.mpr ⟨c, hc, rfl⟩, ha⟩
      refine ⟨fun h1 => hmem _ ?_, fun h1 hps hth => ⟨fun hreg => ⟨hmem _ ?_, ?_⟩, fun hreg => hmem _ ?_⟩⟩
      · simp [sweepClient, h1]
      · simp [sweepClient, h1, hps, hth, hreg]
      · have hcl : (alivenessCheck hostname now last clients).1 =
            clients.map (fun x => (sweepClient hostname now x).1) := by
          simp [alivenessCheck, hgate]
        rw [hcl]
        refine List.mem_map.mpr ⟨c, hc, ?_⟩
        simp [sweepClient, h1, hps, hth, hreg]
      · simp [sweepClient, h1, hps, hth, hreg]
  · intro c hc hps l hin
    by_cases hgate : last + ALIVENESS_CHECK < now
    · have hacts : (alivenessCheck hostname now last clients).2.2 =
          (clients.map (fun x => (sweepClient hostname now x).2)).flatten := by
        simp [alivenessCheck, hgate]
      rw [hacts] at hin
      obtain ⟨lc, hlc, hx⟩ := List.mem_flatten.mp hin
      obtain ⟨c2, hc2, rfl⟩ := List.mem_map.mp hlc
      obtain ⟨hid, hps2⟩ := sweep_ping_inv hostname now c2 c.id l hx
      have : c2 = c := hids c2 hc2 c hc hid.symm
      rw [this] at hps2
      rw [hps] at hps2
      cases hps2
    · simp [alivenessCheck, hgate] at hin

/-- C8, witness: at `now = 200` with the previous sweep at 0, the
registered client idle since 105 (no ping outstanding) is sent
`PING :foohost`. -/
theorem goircd_c8_witness :
    SweepAct.ping 2 (Msg (str "PING :" ++ str "foohost"))
      ∈ (alivenessCheck (str "foohost") 200 0 [cIdleLong, cIdleMid]).2.2 := by
  have h := goircd_c8 (str "foohost") 200 0 [cIdleLong, cIdleMid] (by decide)
  have h2 := (h.2.1 (by decide)).2 cIdleMid (by decide)
  exact ((h2.2 (by decide) (by decide) (by decide)).1 (by decide)).1

/-- Splitting at a head occurrence of the one-byte separator. -/
theorem splitSep_single_cons_self (c : Char) (rest : GoStr) :
    splitSep [c] (c :: rest) = [] :: splitSep [c] rest := by
  simp [splitSep, splitSepF, isPfx]

/-- Unfolding the splitter over a head byte that does not start the
separator. -/
theorem splitSep_cons_neg (sep : GoStr) (x : Char) (s : GoStr)
    (hsep : sep.isEmpty = false) (hp : isPfx sep (x :: s) = false) :
    splitSep sep (x :: s) =
      match splitSep sep s with
      | [] => [[x]]
      | h :: t => (x :: h) :: t := by
  simp [splitSep, hsep, splitSepF, hp]

/-- Splitting on a one-byte separator around its first occurrence. -/
theorem splitSep_append_single (c : Char) (a rest : GoStr) (ha : c ∉ a) :
    splitSep [c] (a ++ c :: rest) = a :: splitSep [c] rest := by
  induction a with
  | nil =>
    simpa using splitSep_single_cons_self c rest
  | cons x xs ih =>
    have hx : (c == x) = false := by
      refine beq_eq_false_iff_ne.mpr (fun h => ha ?_)
      rw [h]
      exact List.mem_cons_self x xs
    have hxs : c ∉ xs := fun h => ha (List.mem_cons_of_mem x h)
    rw [List.cons_append,
      splitSep_cons_neg [c] x (xs ++ c :: rest) (by simp) (by simp [isPfx, hx]),
      ih hxs]

/-- Dropping a replicated satisfying block at the front of `dropWhile`. -/
theorem dropWhile_replicate_append (p : Char → Bool) (c : Char) (n : Nat) (l : List Char)
    (h : p c = true) :
    (List.replicate n c ++ l).dropWhile p = l.dropWhile p := by
  induction n with
  | zero => simp
  | succ n ih => simp [List.replicate_succ, List.dropWhile_cons, h, ih]

/-- Trailing-NUL trimming removes exactly the padding when the content
ends in a byte that is not trimmed. -/
theorem trimRight_pad (content : GoStr) (k : Nat) (a : GoStr) (last : Char)
    (hshape : content = a ++ [last]) (hlast : ([ '\x00' ] : List Char).contains last = false) :
    trimRightCutset ['\x00'] (content ++ List.replicate k '\x00') = content := by
  unfold trimRightCutset
  rw [List.reverse_append, List.reverse_replicate,
    dropWhile_replicate_append _ _ _ _ (by decide), hshape, List.reverse_append,
    show ([last] : GoStr).reverse ++ a.reverse = last :: a.reverse from by simp,
    List.dropWhile_cons_of_neg (by simpa [eq_comm] using hlast)]
  simp

/-- C9: saving a room state writes `<topic>\n<key>\n`, and the startup
restore of that file (1024-byte read, NUL trim, split on newline) yields a
room with the same name, topic and key, provided topic and key hold no
newline and no NUL byte, the serialized state fits the 1024-byte buffer,
and the room name begins with `#` (the startup glob pattern). -/
theorem goircd_c9 (name topic key : GoStr)
    (htn : '\x0a' ∉ topic) (htz : '\x00' ∉ topic)
    (hkn : '\x0a' ∉ key) (hkz : '\x00' ∉ key)
    (hlen : (StateKeeperContent topic key).length ≤ 1024)
    (hname : str "#" <+: name) :
    runRestoreRoom name (StateKeeperContent topic key) = some ⟨name, topic, key⟩ := by
  simp only [runRestoreRoom]
  rw [List.take_of_length_le hlen]
  rw [trimRight_pad (StateKeeperContent topic key) _ (topic ++ '\x0a' :: key) '\x0a'
    (by simp [StateKeeperContent, str, List.append_assoc]) (by decide)]
  have hsplit : splitSep (str "\x0a") (StateKeeperContent topic key) = [topic, key, []] := by
    rw [show StateKeeperContent topic key = topic ++ '\x0a' :: (key ++ ['\x0a']) from by
      simp [StateKeeperContent, str]]
    rw [show (str "\x0a") = ['\x0a'] from rfl]
    rw [splitSep_append_single '\x0a' topic (key ++ ['\x0a']) htn]
    rw [show key ++ ['\x0a'] = key ++ '\x0a' :: ([] : GoStr) from rfl]
    rw [splitSep_append_single '\x0a' key [] hkn]
    rfl
  rw [hsplit]
  simp [List.getD]

/-- C9, witness: the room `#barenc` with topic `New topic` and key
`newkey` (the state of `TestJoin`) survives the save/restore round trip. -/
theorem goircd_c9_witness :
    runRestoreRoom (str "#barenc") (StateKeeperContent (str "New topic") (str "newkey")) =
      some ⟨str "#barenc", str "New topic", str "newkey"⟩ :=
  goircd_c9 (str "#barenc") (str "New topic") (str "newkey")
    (by decide) (by decide) (by decide) (by decide) (by decide)
    ⟨str "barenc", by decide⟩

/-- Auxiliary: `goIndex` finds an index whenever a satisfying byte is present. -/
theorem goIndex_some_of_mem (p : Char → Bool) (pre : GoStr) (x : Char) (post : GoStr)
    (hx : p x = true) :
    goIndex p (pre ++ x :: post) ≠ none := by
  induction pre with
  | nil => simp [goIndex, hx]
  | cons c cs ih =>
    by_cases hc : p c = true
    · simp [goIndex, hc]
    · simp only [List.cons_append, goIndex, hc, if_neg]
      simp [Option.map_eq_none', ih]

/-- The room processor's first-space split succeeds on any text that
contains a space. -/
theorem roomMsgSplit_space (pre post : GoStr) :
    roomMsgSplit (pre ++ ' ' :: post) ≠ none := by
  unfold roomMsgSplit
  have h := goIndex_some_of_mem (fun c => c == ' ') pre ' ' post (by simp)
  rcases hgi : goIndex (fun c => c == ' ') (pre ++ ' ' :: post) with _ | sep
  · exact absurd hgi h
  · simp

/-- C10: every `EVENT_MSG` the daemon forwards to a room sink from
the NOTICE/PRIVMSG arm has text `<command> <payload>` — it contains a
space — so the room processor's split at the first space
(`event.text[:sep]` / `event.text[sep+1:]`) never reaches the
out-of-range branch. -/
theorem goircd_c10 (hostname : GoStr) (clients : List Client) (rooms : List Room)
    (sender : Client) (command : GoStr) (rest : Option GoStr) :
    ∀ f ∈ (handlePrivmsg hostname clients rooms sender command rest).2,
      f.2.etype = EvType.MSG ∧
      (∃ pre post, f.2.text = pre ++ ' ' :: post) ∧
      roomMsgSplit f.2.text ≠ none := by
  intro f hf
  rcases rest with _ | rest1
  · simp [handlePrivmsg] at hf
  · simp only [handlePrivmsg] at hf
    by_cases hlen : (splitN (str " ") rest1 2).length == 1
    · simp [hlen] at hf
    · simp only [hlen, Bool.false_eq_true, if_neg] at hf
      rcases hfind : (clients.find?
          (fun c => c.nickname == toLowerAscii ((splitN (str " ") rest1 2).getD 0 []))) with _ | c
      · rw [hfind] at hf
        rcases hroom : (rooms.find?
            (fun r => r.name == toLowerAscii ((splitN (str " ") rest1 2).getD 0 []))) with _ | r
        · rw [hroom] at hf
          simp at hf
          rw [hf]
          refine ⟨rfl, ⟨command,
            trimLeftCutset [':'] ((splitN (str " ") rest1 2).getD 1 []), by
              simp [str, List.append_assoc]⟩, ?_⟩
          have := roomMsgSplit_space command
            (trimLeftCutset [':'] ((splitN (str " ") rest1 2).getD 1 []))
          simpa [str, List.append_assoc] using this
        · rw [hroom] at hf
          simp at hf
          rw [hf]
          refine ⟨rfl, ⟨command,
            trimLeftCutset [':'] ((splitN (str " ") rest1 2).getD 1 []), by
              simp [str, List.append_assoc]⟩, ?_⟩
          have := roomMsgSplit_space command
            (trimLeftCutset [':'] ((splitN (str " ") rest1 2).getD 1 []))
          simpa [str, List.append_assoc] using this
      · rw [hfind] at hf
        simp at hf

/-- C10, witness: `PRIVMSG #foo hello` is forwarded to room `#foo` as
`PRIVMSG hello`, and the room processor's split succeeds on it. -/
theorem goircd_c10_witness :
    roomMsgSplit (str "PRIVMSG hello") ≠ none := by
  have h := goircd_c10 (str "foohost") [] [⟨str "#foo", [], []⟩] cSender (str "PRIVMSG")
    (some (str "#foo hello"))
  exact (h (some (str "#foo"), ⟨EvType.MSG, str "PRIVMSG hello"⟩) (by decide)).2.2
